import Mathlib

/-!
Verification of the import-graph tool (src/importgraph.py) against its
natural-language specification.  The Python source is shallowly embedded:
pure methods become Lean functions, the mutable graph accumulator becomes
explicit state passing, and the potentially non-terminating edge-recording
method is modelled with explicit fuel.  The live module registry
(sys.modules) is modelled as an association list from module names to
module records carrying an optional __file__ attribute.
-/

namespace Deptree

/-- A loaded module as visible to the tool: only its optional __file__
attribute is ever read (ImportAction.module_file_path). -/
structure PyModule where
  file : Option String
deriving DecidableEq

/-- The live module registry sys.modules: a finite map from dotted module
names to module objects, modelled as an association list. -/
abbrev SysModules := List (String × PyModule)

/-- Lookup in sys.modules; ImportAction._get_module returns the module or
None on KeyError (src/importgraph.py lines 51-56). -/
def get_module (sm : SysModules) (name : String) : Option PyModule :=
  (sm.find? (fun p => p.1 == name)).map Prod.snd

/-- ImportAction.module_file_path (lines 58-66): empty string when the
module is not loaded, or when it has no __file__ attribute. -/
def module_file_path (sm : SysModules) (name : String) : String :=
  match get_module sm name with
  | none => ""
  | some m =>
    match m.file with
    | none => ""
    | some f => f

/-- Python slice l[:-k] where the written index is the negation of the
nonnegative integer k.  For k = 0 the stop index is -0 = 0, so the slice
is empty; for k > 0 the stop index is len - k clamped below at 0, which
truncated Nat subtraction gives directly. -/
def pySliceUptoNeg (l : List α) (k : Nat) : List α :=
  if k = 0 then [] else l.take (l.length - k)

/-- Helper for splitDot, structurally recursive on the character list. -/
def splitDotAux : List Char → List Char → List String
  | [], acc => [⟨acc.reverse⟩]
  | c :: cs, acc =>
    if c = '.' then ⟨acc.reverse⟩ :: splitDotAux cs [] else splitDotAux cs (c :: acc)

/-- Python str.split with the one-character separator dot, as used by
name.split in the source.  The empty string splits to a singleton list
holding the empty string, matching Python.  Implemented by structural
recursion on the character list so concrete instances reduce in the
kernel. -/
def splitDot (s : String) : List String :=
  splitDotAux s.data []

/-- One intercepted import event (class ImportAction, lines 17-30).  The
globals mapping is read only at key __name__, so it is modelled as an
association list of strings; fromlist is None for plain imports.  The
stored imported_module field of the Python class is never read by any
method, so it is omitted. -/
structure ImportAction where
  name : String
  globals : Option (List (String × String))
  fromlist : Option (List String)
  level : Nat
deriving DecidableEq

/-- The sentinel ImportAction.UNKNOWN_MODULE_NAME (line 18). -/
def UNKNOWN_MODULE_NAME : String := "<unknown>"

/-- Python dict lookup returning None on a missing key, used to model the
try/except KeyError around self._globals[key]. -/
def dictGet (g : List (String × String)) (k : String) : Option String :=
  (g.find? (fun p => p.1 == k)).map Prod.snd

/-- ImportAction.from_name (lines 32-38): the sentinel when globals is
None, else the __name__ entry, else the sentinel on KeyError. -/
def from_name (a : ImportAction) : String :=
  match a.globals with
  | none => UNKNOWN_MODULE_NAME
  | some g =>
    match dictGet g "__name__" with
    | none => UNKNOWN_MODULE_NAME
    | some n => n

/-- ImportAction._build_imported_paths (lines 40-49), for fromlist fl.
The from-name is split on dots, the slice [:-level] is taken (empty for
level = 0 since -0 is 0), the dot-split requested name is appended when
the name is a non-empty (truthy) string, and one candidate path per
fromlist item is produced. -/
def build_imported_paths (a : ImportAction) (fl : List String) : List (List String) :=
  let from_module_path := splitDot (from_name a)
  let root0 := pySliceUptoNeg from_module_path a.level
  let root_module := if a.name ≠ "" then root0 ++ splitDot a.name else root0
  fl.map (fun from_item => root_module ++ [from_item])

/-- Truth of the membership test for sys.modules. -/
def loaded (sm : SysModules) (name : String) : Bool :=
  (get_module sm name).isSome

/-- ImportAction._last_module_in_path (lines 68-73): iterate sub_path =
path[:-i] for i in range(len(path)) and return the first sub_path whose
dotted join is a loaded module, else the empty tuple.  Note the iteration
order: i = 0 yields the empty slice (since -0 is 0), then lengths
len-1 down to 1; the full path itself is never examined. -/
def last_module_in_path (sm : SysModules) (path : List String) : List String :=
  match (List.range path.length).find?
      (fun i => loaded sm (String.intercalate "." (pySliceUptoNeg path i))) with
  | some i => pySliceUptoNeg path i
  | none => []

/-- ImportAction.imported_names (lines 75-80).  The Python code builds a
set of resolved module paths and joins each; set formation is modelled by
List.dedup (first-occurrence order, a deterministic refinement of the
unspecified Python set iteration order). -/
def imported_names (sm : SysModules) (a : ImportAction) : List String :=
  match a.fromlist with
  | none => [a.name]
  | some fl =>
    let imported_paths := build_imported_paths a fl
    let imported_module_paths := (imported_paths.map (last_module_in_path sm)).dedup
    imported_module_paths.map (String.intercalate ".")

/-- The graph accumulator state (class AbstractImportGraph, lines 83-91).
A compiled filename regex is modelled abstractly by its fullmatch
predicate on strings. -/
structure ImportGraph where
  filename_regex : Option (String → Bool)
  nodes : Finset String
  edges : Finset (String × String)

/-- AbstractImportGraph._should_keep_edge (lines 93-98): keep every edge
when no regex is configured, else require a full match of both endpoint
file paths. -/
def should_keep_edge (sm : SysModules) (g : ImportGraph) (f t : String) : Bool :=
  match g.filename_regex with
  | none => true
  | some fullmatch =>
    fullmatch (module_file_path sm f) && fullmatch (module_file_path sm t)

/-- AbstractImportGraph._add_node (lines 100-102). -/
def add_node (g : ImportGraph) (n : String) : ImportGraph :=
  if n ∈ g.nodes then g else
    ⟨g.filename_regex, insert n g.nodes, g.edges⟩

/-- AbstractImportGraph._add_edge (lines 104-110), modelled with explicit
fuel because the method is recursive: when the edge passes the filter it
adds both endpoints as nodes and then, if the edge is not yet present,
calls self._add_edge(edge) again on the same state (line 110 recurses
instead of inserting into self._edges).  The result is none when the
fuel is exhausted without the call returning. -/
def add_edge_fuel (sm : SysModules) : Nat → ImportGraph → String × String → Option ImportGraph
  | 0, _, _ => none
  | Nat.succ fuel, g, e =>
    if should_keep_edge sm g e.1 e.2 then
      if e ∈ (add_node (add_node g e.1) e.2).edges then some (add_node (add_node g e.1) e.2)
      else add_edge_fuel sm fuel (add_node (add_node g e.1) e.2) e
    else some g

/-- AbstractImportGraph.add_import (lines 112-114): the list of edge
arguments the loop passes to self._add_edge, one per resolved name. -/
def edges_submitted (sm : SysModules) (a : ImportAction) : List (String × String) :=
  (imported_names sm a).map (fun name => (from_name a, name))

/-- AbstractImportGraph.add_import (lines 112-114), threading the fueled
edge recorder through the submitted edges. -/
def add_import (sm : SysModules) (fuel : Nat) (g : ImportGraph) (a : ImportAction) :
    Option ImportGraph :=
  (edges_submitted sm a).foldlM (fun g e => add_edge_fuel sm fuel g e) g

/-- The base-path computation as the specification words it, for
comparison with build_imported_paths: the root is the prefix
s[0 : length - level] of the from-name segments (so the whole sequence is
kept when level = 0), then the dot-split requested name is appended when
it is non-empty, and one candidate path per fromlist item is produced. -/
def build_imported_paths_spec (a : ImportAction) (fl : List String) : List (List String) :=
  let s := splitDot (from_name a)
  let root0 := s.take (s.length - a.level)
  let root_module := if a.name ≠ "" then root0 ++ splitDot a.name else root0
  fl.map (fun from_item => root_module ++ [from_item])

/-- Python print with its default line terminator: the text written to
the standard output stream by print(x) is x followed by one newline. -/
def printLine (s : String) : String :=
  s ++ "\n"

/-- ImportGraphCommand.run, stdout branch (line 216): when no output path
is requested the run prints the serializer output; the argument is the
string returned by to_string. -/
def run_stdout_text (serialized : String) : String :=
  printLine serialized

/-! Helper lemmas about the graph accumulator. -/

/-- Adding a node never changes the edge set. -/
theorem add_node_edges (g : ImportGraph) (n : String) : (add_node g n).edges = g.edges := by
  unfold add_node
  split <;> rfl

/-- Adding a node never changes the configured regex. -/
theorem add_node_regex (g : ImportGraph) (n : String) :
    (add_node g n).filename_regex = g.filename_regex := by
  unfold add_node
  split <;> rfl

/-- The edge filter reads only the configured regex of the graph state. -/
theorem should_keep_edge_regex (sm : SysModules) (g g1 : ImportGraph) (f t : String)
    (h : g.filename_regex = g1.filename_regex) :
    should_keep_edge sm g f t = should_keep_edge sm g1 f t := by
  unfold should_keep_edge
  rw [h]

/-! Claim theorems. -/

/-- Claim C1: the claim states that recording a kept edge terminates with
the edge present and is idempotent.  The code contradicts this: line 110
of src/importgraph.py calls self._add_edge(edge) recursively instead of
inserting into self._edges, so for any edge that passes the filter and is
not already present the method recurses forever on an equivalent state
and never returns, for every amount of fuel. -/
theorem add_edge_recursion_never_terminates (sm : SysModules) (fuel : Nat) :
    ∀ (g : ImportGraph) (e : String × String),
      should_keep_edge sm g e.1 e.2 = true → e ∉ g.edges →
      add_edge_fuel sm fuel g e = none := by
  induction fuel with
  | zero =>
    intro g e _ _
    rfl
  | succ n ih =>
    intro g e hk he
    have h1 : (add_node (add_node g e.1) e.2).edges = g.edges := by
      rw [add_node_edges, add_node_edges]
    have h2 : should_keep_edge sm (add_node (add_node g e.1) e.2) e.1 e.2 = true := by
      rw [should_keep_edge_regex sm _ g e.1 e.2 (by rw [add_node_regex, add_node_regex])]
      exact hk
    have h3 : e ∉ (add_node (add_node g e.1) e.2).edges := by
      rw [h1]
      exact he
    unfold add_edge_fuel
    rw [if_pos hk, if_neg h3]
    exact ih _ e h2 h3

/-- Witness for C1 at a concrete input: the empty graph with no regex, the
edge (a, b), and fuel 100. -/
theorem add_edge_recursion_never_terminates_witness :
    should_keep_edge [] ⟨none, ∅, ∅⟩ "a" "b" = true ∧
    ("a", "b") ∉ (⟨none, ∅, ∅⟩ : ImportGraph).edges ∧
    add_edge_fuel [] 100 ⟨none, ∅, ∅⟩ ("a", "b") = none :=
  ⟨rfl, by decide,
    add_edge_recursion_never_terminates [] 100 ⟨none, ∅, ∅⟩ ("a", "b") rfl (by decide)⟩

/-- Claim C2: the claim states that resolution walks a candidate path
from its full length down to length 1 and returns the longest loaded
prefix, so that from dot import a inside pkg.sub with level 1 resolves to
pkg.a when pkg.a is loaded.  The code contradicts its own docstring
(find the last item that refers to a module object): the loop examines
path[:-i] for i in range(len(path)), and since -0 is 0 the i = 0
iteration examines the empty slice rather than the full path, which is
never examined; with pkg, pkg.sub and pkg.a all loaded the candidate
(pkg, a) therefore resolves to pkg, not pkg.a. -/
theorem relative_import_resolves_to_parent_not_full_path :
    loaded [("pkg", ⟨none⟩), ("pkg.sub", ⟨none⟩), ("pkg.a", ⟨none⟩)] "pkg.a" = true ∧
    build_imported_paths ⟨"", some [("__name__", "pkg.sub")], some ["a"], 1⟩ ["a"] =
      [["pkg", "a"]] ∧
    last_module_in_path [("pkg", ⟨none⟩), ("pkg.sub", ⟨none⟩), ("pkg.a", ⟨none⟩)]
      ["pkg", "a"] = ["pkg"] ∧
    imported_names [("pkg", ⟨none⟩), ("pkg.sub", ⟨none⟩), ("pkg.a", ⟨none⟩)]
      ⟨"", some [("__name__", "pkg.sub")], some ["a"], 1⟩ = ["pkg"] := by
  decide

/-- Counterexample to claim C3 as stated: with level 0 the code computes
the slice [:-0], which is empty, so the whole from-name is dropped rather
than kept; at requested name os with from-name myapp.main the code yields
the candidate (os, path) while the stated rule yields
(myapp, main, os, path). -/
theorem level_zero_strips_whole_from_name_cex :
    build_imported_paths ⟨"os", some [("__name__", "myapp.main")], some ["path"], 0⟩
      ["path"] = [["os", "path"]] ∧
    build_imported_paths_spec ⟨"os", some [("__name__", "myapp.main")], some ["path"], 0⟩
      ["path"] = [["myapp", "main", "os", "path"]] ∧
    build_imported_paths ⟨"os", some [("__name__", "myapp.main")], some ["path"], 0⟩
      ["path"] ≠
      build_imported_paths_spec ⟨"os", some [("__name__", "myapp.main")], some ["path"], 0⟩
        ["path"] := by
  decide

/-- Claim C3 as amended: for level at least 1 the base path is the prefix
of the from-name segments with the last level segments stripped, followed
by the dot-split requested name; for level 0 the from-name is dropped
entirely (the slice [:-0] is empty), so each candidate path is just the
dot-split requested name (empty when the name is empty) plus the fromlist
entry. -/
theorem build_imported_paths_level_cases (a : ImportAction) (fl : List String) :
    (1 ≤ a.level → build_imported_paths a fl = build_imported_paths_spec a fl) ∧
    (a.level = 0 → build_imported_paths a fl =
      fl.map (fun from_item =>
        (if a.name ≠ "" then splitDot a.name else []) ++ [from_item])) := by
  constructor
  · intro h
    have hne : a.level ≠ 0 := Nat.pos_iff_ne_zero.mp h
    simp [build_imported_paths, build_imported_paths_spec, pySliceUptoNeg, hne]
  · intro h
    simp [build_imported_paths, pySliceUptoNeg, h]

/-- Witness for the amended C3 at concrete inputs: a level 1 relative
event agrees with the stated rule, and a level 0 event keeps only the
requested name. -/
theorem build_imported_paths_level_cases_witness :
    build_imported_paths ⟨"", some [("__name__", "pkg.sub")], some ["a"], 1⟩ ["a"] =
      build_imported_paths_spec ⟨"", some [("__name__", "pkg.sub")], some ["a"], 1⟩ ["a"] ∧
    build_imported_paths ⟨"os", some [("__name__", "myapp.main")], some ["path"], 0⟩
      ["path"] =
      ["path"].map (fun from_item =>
        (if ("os" : String) ≠ "" then splitDot "os" else []) ++ [from_item]) :=
  ⟨(build_imported_paths_level_cases _ _).1 (by decide),
   (build_imported_paths_level_cases _ _).2 rfl⟩

/-- Counterexample to claim C4 as stated: a from-list target none of
whose examined prefixes is loaded is not dropped; the empty resolved path
joins to the empty string, which appears in the resolved target set, and
the loop of add_import submits the edge (main, empty string) for
recording. -/
theorem unresolved_target_not_dropped_cex :
    loaded [("main", ⟨none⟩)] "" = false ∧
    loaded [("main", ⟨none⟩)] "nosuchpkg" = false ∧
    loaded [("main", ⟨none⟩)] "nosuchpkg.x" = false ∧
    imported_names [("main", ⟨none⟩)]
      ⟨"nosuchpkg", some [("__name__", "main")], some ["x"], 0⟩ = [""] ∧
    edges_submitted [("main", ⟨none⟩)]
      ⟨"nosuchpkg", some [("__name__", "main")], some ["x"], 0⟩ = [("main", "")] := by
  decide

/-- Claim C4 as amended: when a candidate path resolves to the empty
path, its dotted join, the empty string, is an element of the resolved
target set, and add_import submits an edge from the requester to the
empty-string node. -/
theorem unresolved_target_contributes_empty_string (sm : SysModules) (a : ImportAction)
    (fl : List String) (p : List String) (hfl : a.fromlist = some fl)
    (hp : p ∈ build_imported_paths a fl) (hun : last_module_in_path sm p = []) :
    "" ∈ imported_names sm a ∧ (from_name a, "") ∈ edges_submitted sm a := by
  have heq : imported_names sm a =
      (((build_imported_paths a fl).map (last_module_in_path sm)).dedup).map
        (String.intercalate ".") := by
    unfold imported_names
    rw [hfl]
  have h1 : "" ∈ imported_names sm a := by
    rw [heq]
    refine List.mem_map.mpr ⟨[], ?_, rfl⟩
    rw [List.mem_dedup]
    exact List.mem_map.mpr ⟨p, hp, hun⟩
  exact ⟨h1, List.mem_map.mpr ⟨"", h1, rfl⟩⟩

/-- Witness for the amended C4 at a concrete input. -/
theorem unresolved_target_contributes_empty_string_witness :
    "" ∈ imported_names [("main", ⟨none⟩)]
      ⟨"nosuchpkg", some [("__name__", "main")], some ["x"], 0⟩ ∧
    ("main", "") ∈ edges_submitted [("main", ⟨none⟩)]
      ⟨"nosuchpkg", some [("__name__", "main")], some ["x"], 0⟩ :=
  unresolved_target_contributes_empty_string _ _ ["x"] ["nosuchpkg", "x"]
    rfl (by decide) (by decide)

/-- Claim C5: when fromlist is absent the resolver returns exactly the
singleton list holding the requested name verbatim, and the result does
not depend on level. -/
theorem plain_import_returns_name_verbatim (sm : SysModules) (a : ImportAction)
    (h : a.fromlist = none) :
    imported_names sm a = [a.name] ∧
    ∀ lvl : Nat, imported_names sm ⟨a.name, a.globals, none, lvl⟩ = [a.name] := by
  constructor
  · unfold imported_names
    rw [h]
  · intro lvl
    rfl

/-- Witness for C5 at a concrete input with a nonzero level. -/
theorem plain_import_returns_name_verbatim_witness :
    imported_names [] ⟨"os.path", some [("__name__", "m")], none, 7⟩ = ["os.path"] :=
  (plain_import_returns_name_verbatim [] ⟨"os.path", some [("__name__", "m")], none, 7⟩ rfl).1

/-- Claim C6: the resolved source-module name is the unknown sentinel
when the globals mapping is absent, the value at key dunder name when
present, and the sentinel again when that key is missing; the embedded
computation is a total function, so it never raises. -/
theorem from_name_total_with_sentinel (a : ImportAction) :
    (a.globals = none → from_name a = UNKNOWN_MODULE_NAME) ∧
    (∀ g, a.globals = some g → dictGet g "__name__" = none →
      from_name a = UNKNOWN_MODULE_NAME) ∧
    (∀ g v, a.globals = some g → dictGet g "__name__" = some v → from_name a = v) := by
  refine ⟨?_, ?_, ?_⟩
  · intro h
    unfold from_name
    rw [h]
  · intro g hg hd
    simp [from_name, hg, hd]
  · intro g v hg hd
    simp [from_name, hg, hd]

/-- Witness for C6 at three concrete inputs, one per case. -/
theorem from_name_total_with_sentinel_witness :
    from_name ⟨"x", none, none, 0⟩ = UNKNOWN_MODULE_NAME ∧
    from_name ⟨"x", some [("other", "v")], none, 0⟩ = UNKNOWN_MODULE_NAME ∧
    from_name ⟨"x", some [("__name__", "mymod")], none, 0⟩ = "mymod" :=
  ⟨(from_name_total_with_sentinel _).1 rfl,
   (from_name_total_with_sentinel _).2.1 [("other", "v")] rfl (by decide),
   (from_name_total_with_sentinel _).2.2 [("__name__", "mymod")] "mymod" rfl (by decide)⟩

/-- Claim C7: with no configured regex every edge passes the filter; with
a configured regex an edge passes exactly when the fullmatch predicate
accepts the backing file paths of both endpoints, where the backing file
path is the empty string for a module that is not loaded or has no file
attribute. -/
theorem edge_filter_fullmatch_both_endpoints (sm : SysModules) (g : ImportGraph)
    (f t : String) :
    (g.filename_regex = none → should_keep_edge sm g f t = true) ∧
    (∀ rx, g.filename_regex = some rx →
      (should_keep_edge sm g f t = true ↔
        rx (module_file_path sm f) = true ∧ rx (module_file_path sm t) = true)) ∧
    (∀ name, get_module sm name = none → module_file_path sm name = "") ∧
    (∀ name m, get_module sm name = some m → m.file = none →
      module_file_path sm name = "") := by
  refine ⟨?_, ?_, ?_, ?_⟩
  · intro h
    unfold should_keep_edge
    rw [h]
  · intro rx h
    simp [should_keep_edge, h]
  · intro name h
    unfold module_file_path
    rw [h]
  · intro name m h hf
    simp [module_file_path, h, hf]

/-- Witness for C7 at concrete inputs covering the no-regex case, the
configured-regex case, a missing module and a module without a file. -/
theorem edge_filter_fullmatch_both_endpoints_witness :
    should_keep_edge [] ⟨none, ∅, ∅⟩ "a" "b" = true ∧
    (should_keep_edge [("a", ⟨some "a.py"⟩), ("b", ⟨some "b.py"⟩)]
        ⟨some (fun s => s == "a.py"), ∅, ∅⟩ "a" "b" = true ↔
      (fun s : String => s == "a.py")
          (module_file_path [("a", ⟨some "a.py"⟩), ("b", ⟨some "b.py"⟩)] "a") = true ∧
      (fun s : String => s == "a.py")
          (module_file_path [("a", ⟨some "a.py"⟩), ("b", ⟨some "b.py"⟩)] "b") = true) ∧
    module_file_path [] "z" = "" ∧
    module_file_path [("c", ⟨none⟩)] "c" = "" :=
  ⟨(edge_filter_fullmatch_both_endpoints [] ⟨none, ∅, ∅⟩ "a" "b").1 rfl,
   (edge_filter_fullmatch_both_endpoints [("a", ⟨some "a.py"⟩), ("b", ⟨some "b.py"⟩)]
     ⟨some (fun s => s == "a.py"), ∅, ∅⟩ "a" "b").2.1 (fun s => s == "a.py") rfl,
   (edge_filter_fullmatch_both_endpoints [] ⟨none, ∅, ∅⟩ "z" "z").2.2.1 "z" rfl,
   (edge_filter_fullmatch_both_endpoints [("c", ⟨none⟩)] ⟨none, ∅, ∅⟩ "c" "c").2.2.2
     "c" ⟨none⟩ rfl rfl⟩

/-- Claim C8: for from pkg import a, b with pkg loaded but neither pkg.a
nor pkg.b loaded, both fromlist entries resolve to pkg, the set
construction deduplicates them, and add_import submits the single edge
(caller, pkg). -/
theorem fromlist_targets_deduplicated :
    loaded [("caller", ⟨none⟩), ("pkg", ⟨none⟩)] "pkg" = true ∧
    loaded [("caller", ⟨none⟩), ("pkg", ⟨none⟩)] "pkg.a" = false ∧
    loaded [("caller", ⟨none⟩), ("pkg", ⟨none⟩)] "pkg.b" = false ∧
    imported_names [("caller", ⟨none⟩), ("pkg", ⟨none⟩)]
      ⟨"pkg", some [("__name__", "caller")], some ["a", "b"], 0⟩ = ["pkg"] ∧
    edges_submitted [("caller", ⟨none⟩), ("pkg", ⟨none⟩)]
      ⟨"pkg", some [("__name__", "caller")], some ["a", "b"], 0⟩ =
      [("caller", "pkg")] := by
  decide

/-- Counterexample to claim C9 as stated: the stdout branch of run uses
print, whose default terminator appends one newline, so the text written
is not exactly the serializer output. -/
theorem stdout_appends_newline_cex :
    run_stdout_text "digraph" = "digraph\n" ∧ run_stdout_text "digraph" ≠ "digraph" := by
  decide

/-- Claim C9 as amended: the text written to the standard output stream
is the serializer output followed by exactly one newline, the default
print terminator, and in particular always differs from the serializer
output itself. -/
theorem stdout_is_serialized_plus_newline (s : String) :
    run_stdout_text s = s ++ "\n" ∧ run_stdout_text s ≠ s := by
  refine ⟨rfl, fun h => ?_⟩
  have h2 := congrArg String.length h
  rw [run_stdout_text, printLine, String.length_append] at h2
  have h3 : ("\n").length = 1 := rfl
  rw [h3] at h2
  omega

/-- Claim C10: candidate-path construction is total in level; one
candidate path is produced per fromlist entry for every level, and when
level exceeds the number of from-name segments the over-stripped root is
empty, so each candidate is the dot-split requested name plus the
fromlist entry. -/
theorem build_imported_paths_total_in_level (a : ImportAction) (fl : List String) :
    (build_imported_paths a fl).length = fl.length ∧
    ((splitDot (from_name a)).length < a.level →
      build_imported_paths a fl =
        fl.map (fun from_item =>
          (if a.name ≠ "" then splitDot a.name else []) ++ [from_item])) := by
  constructor
  · simp [build_imported_paths]
  · intro h
    have hne : a.level ≠ 0 := by omega
    have hz : (splitDot (from_name a)).length - a.level = 0 :=
      Nat.sub_eq_zero_of_le (Nat.le_of_lt h)
    simp [build_imported_paths, pySliceUptoNeg, hne, hz]

/-- Witness for C10 at a concrete input with level 5 and a two-segment
from-name. -/
theorem build_imported_paths_total_in_level_witness :
    (splitDot (from_name ⟨"q", some [("__name__", "a.b")], some ["x"], 5⟩)).length < 5 ∧
    build_imported_paths ⟨"q", some [("__name__", "a.b")], some ["x"], 5⟩ ["x"] =
      [["q", "x"]] :=
  ⟨by decide,
   ((build_imported_paths_total_in_level ⟨"q", some [("__name__", "a.b")], some ["x"], 5⟩
     ["x"]).2 (by decide)).trans (by decide)⟩

end Deptree
